import Mathlib

/-!
# A shallow embedding of `examples/main.c`

The program prints a greeting, calls the two greeters `foo` and `bar`, prints
the address of `main` with `%#010x`, reads the three bytes `start[1]`,
`start[2]`, `start[3]` through the hard-coded pointer `start = 0x400000` and
prints them with `%c`.

Standard output is a list of bytes (`List Nat`).  The process state holds the
three globals of the translation unit and the bytes handed to `printf` so far.
The environment holds what the program cannot choose: where the loader put
`main`, and which bytes of the address space are mapped.  A read of an
unmapped byte is a fault (SIGSEGV): execution stops there.

`printf` is library code; it is modelled after the C standard's description of
the conversions this program uses (`%c` and `%#010x`), on the LP64 target the
source comment names (an ELF object whose header sits at `0x400000`): a
pointer is 64 bits wide, an `unsigned int` 32.
-/

namespace Elf

/-! ## Bytes and state -/

/-- Bytes of a C string literal (ASCII only in this program). -/
def str (s : String) : List Nat := s.toList.map Char.toNat

/-- Globals of `main.c` (`g_myGlobal`, `g_myGlobal2`, `start`) together with
the bytes written to standard output so far. -/
structure State where
  g_myGlobal : Int
  g_myGlobal2 : Int
  start : Nat
  out : List Nat
deriving DecidableEq

/-- State at process start: the initialisers of lines 3, 4 and 7, and no
output yet. -/
def initState : State :=
  { g_myGlobal := 0, g_myGlobal2 := 0, start := 0x00000000400000, out := [] }

/-- What the platform decides: the address of `main`, and the mapped bytes of
the address space (`none` is an unmapped address). -/
structure Env where
  mainAddr : Nat
  mem : Nat → Option (Fin 256)

/-- Result of running a piece of code: it returns a value in a final state, or
the process is killed by a fault in the state reached so far. -/
inductive Outcome (α : Type) where
  | ok (ret : α) (st : State)
  | fault (st : State)
deriving DecidableEq

/-- Code of return type `α`: a function of the state. -/
def Exec (α : Type) : Type := State → Outcome α

/-- Sequencing; a fault ends the run. -/
def Exec.bind {α β : Type} (m : Exec α) (f : α → Exec β) : Exec β :=
  fun st =>
    match m st with
    | .ok a st' => f a st'
    | .fault st' => .fault st'

instance : Monad Exec where
  pure a := fun st => .ok a st
  bind := Exec.bind

/-! ## `printf` -/

/-- A variadic argument as passed by the caller. -/
inductive Arg where
  | int (i : Int)
  | ptr (p : Nat)
deriving DecidableEq

/-- What `va_arg(ap, unsigned int)` fetches: an `int` is reinterpreted modulo
`2^32`; of a 64-bit pointer only the low 32 bits of its argument slot are
read. -/
def Arg.asUInt : Arg → Nat
  | .int i => (i % 2 ^ 32).toNat
  | .ptr p => p % 2 ^ 32

/-- What `va_arg(ap, int)` fetches, converted to `unsigned char` as `%c`
does. -/
def Arg.asUChar : Arg → Nat
  | .int i => (i % 256).toNat
  | .ptr p => p % 256

/-- The lowercase hexadecimal digit of `d < 16`, as a byte. -/
def hexDigit (d : Nat) : Nat := if d < 10 then 48 + d else 87 + d

/-- Digit generation of an `x` conversion: least significant digit first,
pushed in front of `acc`, until the quotient is zero.  At least one digit is
produced. -/
def hexLoop : Nat → Nat → List Nat → List Nat
  | 0, _, acc => acc
  | fuel + 1, v, acc =>
    if v / 16 = 0 then hexDigit (v % 16) :: acc
    else hexLoop fuel (v / 16) (hexDigit (v % 16) :: acc)

/-- Hexadecimal digits of `v` without leading zeros (`"0"` for zero).  The
loop runs at most `v + 1` times. -/
def hexDigits (v : Nat) : List Nat := hexLoop (v + 1) v []

/-- The `x` conversion with flags `#` (`alt`) and `0` (`zero`) and a field
width: a nonzero value gets the `0x` prefix; padding to the width is with
zeros after the prefix under the `0` flag, with spaces on the left otherwise.
Nothing is ever cut off. -/
def fmtHex (alt zero : Bool) (width : Nat) (v : Nat) : List Nat :=
  let ds := hexDigits v
  let pfx := if alt && v != 0 then str "0x" else []
  let pad := width - (pfx.length + ds.length)
  if zero then pfx ++ List.replicate pad 48 ++ ds
  else List.replicate pad 32 ++ pfx ++ ds

/-- The bytes `printf` produces for a format and its arguments, for the
directives that occur in `main.c`: `%c`, `%#010x`, and ordinary characters. -/
def format : List Char → List Arg → List Nat
  | [], _ => []
  | '%' :: 'c' :: fmt, a :: args => a.asUChar :: format fmt args
  | '%' :: '#' :: '0' :: '1' :: '0' :: 'x' :: fmt, a :: args =>
    fmtHex true true 10 a.asUInt ++ format fmt args
  | c :: fmt, args => c.toNat :: format fmt args

/-- The library call `printf(fmt, args...)`: appends the formatted bytes to
standard output and returns their number. -/
def printf (fmt : String) (args : List Arg) : Exec Int :=
  fun st =>
    let bs := format fmt.toList args
    .ok bs.length { st with out := st.out ++ bs }

/-! ## The program -/

/-- Reading a `char` at address `a`: a fault when the address is unmapped,
else the byte as a (signed) `char` promoted to `int`. -/
def load (env : Env) (a : Nat) : Exec Int :=
  fun st =>
    match env.mem a with
    | none => .fault st
    | some b => .ok (if b.val < 128 then (b.val : Int) else (b.val : Int) - 256) st

/-- The value of the global `start`. -/
def getStart : Exec Nat := fun st => .ok st.start st

/-- Lines 9-11: `void bar() { printf("bar"); }`. -/
def bar (_env : Env) : Exec Unit := do
  let _ ← printf "bar" []

/-- Lines 13-15: `void foo() { printf("foo"); }`. -/
def foo (_env : Env) : Exec Unit := do
  let _ ← printf "foo" []

/-- Lines 17-24: `main`.  The three arguments of the last `printf` are
evaluated before the call, here from left to right. -/
def main (env : Env) : Exec Int := do
  let _ ← printf "Hello World!\n" []
  foo env
  bar env
  let _ ← printf "main is located at %#010x\n" [.ptr env.mainAddr]
  let c1 ← load env ((← getStart) + 1)
  let c2 ← load env ((← getStart) + 2)
  let c3 ← load env ((← getStart) + 3)
  let _ ← printf "Start %c %c %c\n" [.int c1, .int c2, .int c3]
  return 0

/-- A run of the program: `main` from the initial state. -/
def run (env : Env) : Outcome Int := main env initState

/-- A non-PIE load: the ELF header is mapped at `0x400000`, `main` is in the
text segment that follows. -/
def elfEnv : Env where
  mainAddr := 0x401136
  mem := fun a =>
    if a = 0x400000 then some 0x7f
    else if a = 0x400001 then some 69
    else if a = 0x400002 then some 76
    else if a = 0x400003 then some 70
    else if 0x400004 ≤ a ∧ a < 0x402000 then some 0
    else none

/-- A position-independent load: `main` is far above 4 GiB and nothing is
mapped at `0x400000`. -/
def pieEnv : Env where
  mainAddr := 0x555555555149
  mem := fun a => if 0x555555554000 ≤ a ∧ a < 0x555555559000 then some 0 else none

/-- A load in which the low 32 bits of the address of `main` are all zero: the
text segment starts at 4 GiB, the ELF header is mapped at `0x400000`. -/
def highEnv : Env where
  mainAddr := 0x100000000
  mem := fun a =>
    if a = 0x400000 then some 0x7f
    else if a = 0x400001 then some 69
    else if a = 0x400002 then some 76
    else if a = 0x400003 then some 70
    else if 0x100000000 ≤ a ∧ a < 0x100001000 then some 0
    else none

/-- Same address of `main` and same four bytes at `0x400000` as `elfEnv`,
nothing else mapped. -/
def headerOnlyEnv : Env where
  mainAddr := 0x401136
  mem := fun a =>
    if a = 0x400000 then some 0x7f
    else if a = 0x400001 then some 69
    else if a = 0x400002 then some 76
    else if a = 0x400003 then some 70
    else none

/-- Same address of `main` as `elfEnv`; only the bytes at offsets 1, 2, 3 are
mapped, the base address itself is not. -/
def bareEnv : Env where
  mainAddr := 0x401136
  mem := fun a =>
    if a = 0x400001 then some 69
    else if a = 0x400002 then some 76
    else if a = 0x400003 then some 70
    else none

/-! ## Vocabulary of the statements -/

/-- The field `%#010x` produces for the address `a` of `main`. -/
def addrField (a : Nat) : List Nat := fmtHex true true 10 (Arg.ptr a).asUInt

/-- Everything `main` prints before it touches memory through `start`. -/
def headerOut (a : Nat) : List Nat :=
  str "Hello World!\n" ++ str "foo" ++ str "bar" ++ str "main is located at " ++ addrField a
    ++ str "\n"

/-- The output of the last `printf` for the three bytes read. -/
def startLine (b1 b2 b3 : Nat) : List Nat :=
  str "Start " ++ [b1] ++ str " " ++ [b2] ++ str " " ++ [b3] ++ str "\n"

/-- A byte that is one of `0`..`9`, `a`..`f`. -/
def isLowerHex (c : Nat) : Prop := (48 ≤ c ∧ c ≤ 57) ∨ (97 ≤ c ∧ c ≤ 102)

instance (c : Nat) : Decidable (isLowerHex c) := by
  unfold isLowerHex; infer_instance

/-- The byte of an ASCII character, as a memory cell holds it. -/
def chr (c : Char) : Fin 256 := ⟨c.toNat % 256, Nat.mod_lt _ (by decide)⟩

/-- The bytes a run handed to standard output, whether it ended normally or by
a fault. -/
def Outcome.stdout {α : Type} : Outcome α → List Nat
  | .ok _ st => st.out
  | .fault st => st.out

/-- The exit status of a run that ended normally; `none` for a run killed by a
fault. -/
def Outcome.exitStatus : Outcome Int → Option Int
  | .ok code _ => some code
  | .fault _ => none

/-- Value of a hexadecimal digit character (0 for any other byte). -/
def hexVal (c : Nat) : Nat :=
  if 48 ≤ c ∧ c ≤ 57 then c - 48
  else if 97 ≤ c ∧ c ≤ 102 then c - 87
  else if 65 ≤ c ∧ c ≤ 70 then c - 55
  else 0

/-- Reading a string of hexadecimal digits as a number, most significant
digit first. -/
def parseHex (cs : List Nat) : Nat := cs.foldl (fun acc c => acc * 16 + hexVal c) 0

/-! ## Evaluating `printf` on the five format strings -/

theorem format_hello : format "Hello World!\n".toList [] = str "Hello World!\n" := by
  rfl

theorem format_foo : format "foo".toList [] = str "foo" := by
  rfl

theorem format_bar : format "bar".toList [] = str "bar" := by
  rfl

theorem format_addr (a : Arg) :
    format "main is located at %#010x\n".toList [a]
      = str "main is located at " ++ (fmtHex true true 10 a.asUInt ++ str "\n") := by
  rfl

theorem format_start (a1 a2 a3 : Arg) :
    format "Start %c %c %c\n".toList [a1, a2, a3]
      = str "Start " ++ [a1.asUChar] ++ str " " ++ [a2.asUChar] ++ str " " ++ [a3.asUChar]
          ++ str "\n" := by
  rfl

/-- A byte read as `char`, promoted to `int` and written by `%c` is the byte
itself. -/
theorem asUChar_load (b : Fin 256) :
    Arg.asUChar (.int (if b.val < 128 then (b.val : Int) else (b.val : Int) - 256)) = b.val := by
  have hb := b.isLt
  simp only [Arg.asUChar]
  split <;> omega

/-! ## The two shapes of a run -/

theorem pure_apply {α : Type} (a : α) (st : State) : (pure a : Exec α) st = .ok a st := rfl

theorem bind_apply {α β : Type} (m : Exec α) (f : α → Exec β) (st : State) :
    (m >>= f) st = match m st with
      | .ok a st' => f a st'
      | .fault st' => .fault st' := rfl

theorem printf_apply (fmt : String) (args : List Arg) (st : State) :
    printf fmt args st
      = .ok (format fmt.toList args).length { st with out := st.out ++ format fmt.toList args } :=
  rfl

theorem foo_eq (env : Env) (st : State) :
    foo env st = .ok () { st with out := st.out ++ str "foo" } := by
  simp only [foo, bind_apply, printf_apply, format_foo, pure_apply]

theorem bar_eq (env : Env) (st : State) :
    bar env st = .ok () { st with out := st.out ++ str "bar" } := by
  simp only [bar, bind_apply, printf_apply, format_bar, pure_apply]

/-- Shape of `main`: the header is printed, then the three reads decide. -/
theorem main_eq (env : Env) (st : State) :
    main env st =
      match env.mem (st.start + 1), env.mem (st.start + 2), env.mem (st.start + 3) with
      | some b1, some b2, some b3 =>
        .ok 0 { st with out := st.out ++ headerOut env.mainAddr ++ startLine b1.val b2.val b3.val }
      | _, _, _ => .fault { st with out := st.out ++ headerOut env.mainAddr } := by
  simp only [main, bind_apply, printf_apply, foo_eq, bar_eq, format_hello, format_addr,
    format_start, pure_apply, load, getStart]
  cases h1 : env.mem (st.start + 1) <;> cases h2 : env.mem (st.start + 2) <;>
    cases h3 : env.mem (st.start + 3) <;>
    simp [h2, h3, headerOut, startLine, addrField, asUChar_load, List.append_assoc]

/-! ## The hexadecimal conversion -/

theorem hexLoop_eq_digits (fuel : Nat) :
    ∀ (v : Nat) (acc : List Nat), 0 < v → v ≤ fuel →
      hexLoop fuel v acc = (Nat.digits 16 v).reverse.map hexDigit ++ acc := by
  induction fuel with
  | zero => intro v acc hv hf; omega
  | succ fuel ih =>
    intro v acc hv hf
    rw [Nat.digits_def' (by norm_num) hv]
    by_cases hq : v / 16 = 0
    · simp [hexLoop, hq]
    · have hlt : v / 16 < v := Nat.div_lt_self hv (by norm_num)
      simp only [hexLoop, hq, if_false]
      rw [ih (v / 16) _ (Nat.pos_of_ne_zero hq) (by omega)]
      simp

theorem hexDigits_zero : hexDigits 0 = [48] := rfl

theorem hexDigits_pos (v : Nat) (hv : 0 < v) :
    hexDigits v = (Nat.digits 16 v).reverse.map hexDigit := by
  rw [hexDigits, hexLoop_eq_digits (v + 1) v [] hv (by omega)]
  simp

theorem isLowerHex_hexDigit (d : Nat) (hd : d < 16) : isLowerHex (hexDigit d) := by
  unfold isLowerHex hexDigit
  split <;> omega

theorem hexVal_hexDigit (d : Nat) (hd : d < 16) : hexVal (hexDigit d) = d := by
  unfold hexVal hexDigit
  split <;> split <;> (try split) <;> (try split) <;> omega

theorem hexDigits_isLowerHex (v : Nat) : ∀ c ∈ hexDigits v, isLowerHex c := by
  intro c hc
  rcases Nat.eq_zero_or_pos v with rfl | hv
  · rw [hexDigits_zero] at hc
    simp at hc
    subst hc
    decide
  · rw [hexDigits_pos v hv] at hc
    simp only [List.mem_map, List.mem_reverse] at hc
    obtain ⟨d, hd, rfl⟩ := hc
    exact isLowerHex_hexDigit d (Nat.digits_lt_base (by norm_num) hd)

theorem hexDigits_length_pos (v : Nat) : 1 ≤ (hexDigits v).length := by
  rcases Nat.eq_zero_or_pos v with rfl | hv
  · simp [hexDigits_zero]
  · rw [hexDigits_pos v hv]
    have : Nat.digits 16 v ≠ [] := Nat.digits_ne_nil_iff_ne_zero.mpr (by omega)
    simp only [List.length_map, List.length_reverse]
    exact List.length_pos.mpr this

/-- A 32-bit value has at most eight hexadecimal digits. -/
theorem hexDigits_length_le (v : Nat) (hv : v < 2 ^ 32) : (hexDigits v).length ≤ 8 := by
  rcases Nat.eq_zero_or_pos v with rfl | hpos
  · simp [hexDigits_zero]
  · rw [hexDigits_pos v hpos]
    simp only [List.length_map, List.length_reverse]
    have h1 := Nat.base_pow_length_digits_le 16 v (by norm_num) (by omega)
    by_contra hcon
    have h9 : 9 ≤ (Nat.digits 16 v).length := by omega
    have h2 : 16 ^ 9 ≤ 16 ^ (Nat.digits 16 v).length := Nat.pow_le_pow_right (by norm_num) h9
    have h3 : (16 : Nat) ^ 9 = 16 * 2 ^ 32 := by norm_num
    omega

theorem parseHex_append (xs ys : List Nat) :
    parseHex (xs ++ ys) = ys.foldl (fun acc c => acc * 16 + hexVal c) (parseHex xs) := by
  simp [parseHex, List.foldl_append]

theorem parseHex_zeros (k : Nat) : parseHex (List.replicate k 48) = 0 := by
  induction k with
  | zero => rfl
  | succ k ih =>
    rw [List.replicate_succ', parseHex_append, ih]
    rfl

theorem parseHex_digits (ds : List Nat) (h : ∀ d ∈ ds, d < 16) :
    parseHex (ds.reverse.map hexDigit) = Nat.ofDigits 16 ds := by
  induction ds with
  | nil => rfl
  | cons d ds ih =>
    have hd : d < 16 := h d (List.mem_cons_self _ _)
    have ih' := ih (fun x hx => h x (List.mem_cons_of_mem _ hx))
    rw [List.reverse_cons, List.map_append, parseHex_append, ih']
    simp only [List.map_cons, List.map_nil, List.foldl_cons, List.foldl_nil,
      hexVal_hexDigit d hd, Nat.ofDigits_cons]
    ring

/-- Reading back the digits of `v` gives `v`. -/
theorem parseHex_hexDigits (v : Nat) : parseHex (hexDigits v) = v := by
  rcases Nat.eq_zero_or_pos v with rfl | hv
  · rfl
  · rw [hexDigits_pos v hv, parseHex_digits _ (fun d hd => Nat.digits_lt_base (by norm_num) hd),
      Nat.ofDigits_digits]

/-- Leading zeros do not change the value read. -/
theorem parseHex_padded (k v : Nat) : parseHex (List.replicate k 48 ++ hexDigits v) = v := by
  rw [parseHex_append, parseHex_zeros]
  exact parseHex_hexDigits v

/-- `%#010x` on a nonzero 32-bit value: `0x`, then zeros, then the digits,
eight characters after the prefix. -/
theorem fmtHex_alt_zero_pos (v : Nat) (h0 : v ≠ 0) (hv : v < 2 ^ 32) :
    fmtHex true true 10 v
      = str "0x" ++ (List.replicate (8 - (hexDigits v).length) 48 ++ hexDigits v) := by
  have hlen := hexDigits_length_le v hv
  have h2 : (str "0x").length = 2 := rfl
  simp only [fmtHex, Bool.true_and, bne_iff_ne, ne_eq, h0, not_false_eq_true, decide_True,
    if_true, h2, List.append_assoc]
  congr 3
  omega

/-- `%#010x` on zero: no prefix, ten zeros. -/
theorem fmtHex_alt_zero_zero : fmtHex true true 10 0 = List.replicate 10 48 := by
  rfl

theorem addrField_eq (a : Nat) : addrField a = fmtHex true true 10 (a % 2 ^ 32) := rfl

/-- Every byte of the address field is `x` or a lowercase hexadecimal digit. -/
theorem addrField_bytes (a : Nat) : ∀ c ∈ addrField a, c = 120 ∨ isLowerHex c := by
  intro c hc
  have h48 : isLowerHex 48 := by decide
  simp only [addrField_eq, fmtHex, if_true, List.mem_append, List.mem_replicate] at hc
  rcases hc with (hc | hc) | hc
  · split at hc
    · simp only [str, String.toList, List.map_cons, List.map_nil, List.mem_cons,
        List.mem_singleton, List.not_mem_nil, or_false] at hc
      rcases hc with rfl | rfl
      · exact Or.inr (by decide)
      · exact Or.inl (by decide)
    · simp at hc
  · exact Or.inr (hc.2 ▸ h48)
  · exact Or.inr (hexDigits_isLowerHex _ c hc)

theorem addrField_length (a : Nat) : (addrField a).length = 10 := by
  have hlt : a % 2 ^ 32 < 2 ^ 32 := Nat.mod_lt _ (by norm_num)
  by_cases h0 : a % 2 ^ 32 = 0
  · rw [addrField_eq, h0]; rfl
  · have h1 := hexDigits_length_le _ hlt
    rw [addrField_eq, fmtHex_alt_zero_pos _ h0 hlt]
    simp only [List.length_append, List.length_replicate]
    have : (str "0x").length = 2 := rfl
    omega

/-- What is read back from the characters after the first two of the field is
the low 32 bits of the address. -/
theorem parseHex_addrField (a : Nat) : parseHex ((addrField a).drop 2) = a % 2 ^ 32 := by
  have hlt : a % 2 ^ 32 < 2 ^ 32 := Nat.mod_lt _ (by norm_num)
  by_cases h0 : a % 2 ^ 32 = 0
  · rw [addrField_eq, h0]; rfl
  · rw [addrField_eq, fmtHex_alt_zero_pos _ h0 hlt]
    have : (str "0x" ++ (List.replicate (8 - (hexDigits (a % 2 ^ 32)).length) 48
        ++ hexDigits (a % 2 ^ 32))).drop 2
        = List.replicate (8 - (hexDigits (a % 2 ^ 32)).length) 48 ++ hexDigits (a % 2 ^ 32) := rfl
    rw [this, parseHex_padded]

/-- Shape of the address field at every address: ten characters, the last
eight of them lowercase hexadecimal digits; the first two are `0x` when the
value `%x` received is not zero. -/
theorem addrField_shape (a : Nat) :
    (addrField a).length = 10 ∧ ((addrField a).drop 2).length = 8 ∧
      (∀ c ∈ (addrField a).drop 2, isLowerHex c) ∧
      ((Arg.ptr a).asUInt ≠ 0 → (addrField a).take 2 = str "0x") := by
  have hlt : a % 2 ^ 32 < 2 ^ 32 := Nat.mod_lt _ (by norm_num)
  have hlen := hexDigits_length_le _ hlt
  refine ⟨addrField_length a, by simp [addrField_length a], ?_, ?_⟩
  · by_cases h0 : a % 2 ^ 32 = 0
    · rw [addrField_eq, h0]
      decide
    · rw [addrField_eq, fmtHex_alt_zero_pos _ h0 hlt]
      intro c hc
      have hd : (str "0x" ++ (List.replicate (8 - (hexDigits (a % 2 ^ 32)).length) 48
          ++ hexDigits (a % 2 ^ 32))).drop 2
          = List.replicate (8 - (hexDigits (a % 2 ^ 32)).length) 48
            ++ hexDigits (a % 2 ^ 32) := rfl
      rw [hd] at hc
      simp only [List.mem_append, List.mem_replicate] at hc
      rcases hc with hc | hc
      · rw [hc.2]; decide
      · exact hexDigits_isLowerHex _ c hc
  · intro h0
    have h0' : a % 2 ^ 32 ≠ 0 := h0
    rw [addrField_eq, fmtHex_alt_zero_pos _ h0' hlt]
    rfl

theorem run_eq (env : Env) :
    run env =
      match env.mem (0x400000 + 1), env.mem (0x400000 + 2), env.mem (0x400000 + 3) with
      | some b1, some b2, some b3 =>
        .ok 0 { initState with out := headerOut env.mainAddr ++ startLine b1.val b2.val b3.val }
      | _, _, _ => .fault { initState with out := headerOut env.mainAddr } := by
  rw [run, main_eq]
  simp [initState]

theorem run_ok (env : Env) (b1 b2 b3 : Fin 256) (h1 : env.mem (0x400000 + 1) = some b1)
    (h2 : env.mem (0x400000 + 2) = some b2) (h3 : env.mem (0x400000 + 3) = some b3) :
    run env
      = .ok 0 { initState with out := headerOut env.mainAddr ++ startLine b1.val b2.val b3.val } := by
  rw [run_eq, h1, h2, h3]

theorem run_fault (env : Env)
    (h : env.mem (0x400000 + 1) = none ∨ env.mem (0x400000 + 2) = none
      ∨ env.mem (0x400000 + 3) = none) :
    run env = .fault { initState with out := headerOut env.mainAddr } := by
  rw [run_eq]
  rcases h with h | h | h
  · rw [h]
  · rw [h]; cases env.mem (0x400000 + 1) <;> rfl
  · rw [h]; cases env.mem (0x400000 + 1) <;> cases env.mem (0x400000 + 2) <;> rfl

/-- A completed run read all three bytes. -/
theorem run_ok_inv (env : Env) (code : Int) (st : State) (h : run env = .ok code st) :
    ∃ b1 b2 b3 : Fin 256, code = 0 ∧
      st.out = headerOut env.mainAddr ++ startLine b1.val b2.val b3.val := by
  rw [run_eq] at h
  cases h1 : env.mem (0x400000 + 1) with
  | none => rw [h1] at h; simp at h
  | some b1 =>
    cases h2 : env.mem (0x400000 + 2) with
    | none => rw [h1, h2] at h; simp at h
    | some b2 =>
      cases h3 : env.mem (0x400000 + 3) with
      | none => rw [h1, h2, h3] at h; simp at h
      | some b3 =>
        rw [h1, h2, h3] at h
        simp only [Outcome.ok.injEq] at h
        exact ⟨b1, b2, b3, h.1.symm, by rw [← h.2]⟩

theorem headerOut_getLast (a : Nat) : (headerOut a).getLast? = some 10 := by
  unfold headerOut
  exact List.getLast?_concat _

/-- The header contains no capital `S`. -/
theorem not_mem_headerOut (a : Nat) : 83 ∉ headerOut a := by
  intro h
  simp only [headerOut, List.mem_append] at h
  rcases h with ((((h | h) | h) | h) | h) | h
  · revert h; decide
  · revert h; decide
  · revert h; decide
  · revert h; decide
  · rcases addrField_bytes a 83 h with h | h
    · omega
    · revert h; decide
  · revert h; decide

/-! ## The claims -/

/-- C1, as stated, fails: after `bar` the program prints no newline.  In the
non-PIE load `elfEnv` the run completes and its output continues with
`main is located at` directly after `foobar`; and in `highEnv`, where the low
32 bits of the address of `main` are zero, the field does not start with
`0x`. -/
theorem C1_counterexample :
    (∃ st, run elfEnv = .ok 0 st ∧
      st.out = str "Hello World!\nfoobarmain is located at 0x00401136\nStart E L F\n" ∧
      ¬ ∃ field rest, st.out = str "Hello World!\n" ++ str "foo" ++ str "bar" ++ str "\n"
          ++ str "main is located at " ++ field ++ str "\n" ++ rest) ∧
    (∃ st, run highEnv = .ok 0 st ∧
      st.out = str "Hello World!\nfoobarmain is located at 0000000000\nStart E L F\n") := by
  refine ⟨⟨{ initState with
      out := str "Hello World!\nfoobarmain is located at 0x00401136\nStart E L F\n" },
      rfl, rfl, ?_⟩,
    ⟨{ initState with
      out := str "Hello World!\nfoobarmain is located at 0000000000\nStart E L F\n" },
      rfl, rfl⟩⟩
  rintro ⟨field, rest, h⟩
  have h19 := congrArg (fun l => l[19]?) h
  simp [str] at h19

/-- C1, amended: every completed run's output begins with `Hello World!\n`,
then `foo`, then `bar`, then (no newline in between) `main is located at `, the
ten-character field of `%#010x`, and a newline; when the low 32 bits of the
address of `main` are not all zero the field is `0x` followed by eight
lowercase hexadecimal digits. -/
theorem C1_output_begins (env : Env) (code : Int) (st : State)
    (h : run env = .ok code st) :
    ∃ rest, st.out = str "Hello World!\n" ++ str "foo" ++ str "bar"
        ++ str "main is located at " ++ addrField env.mainAddr ++ str "\n" ++ rest ∧
      (addrField env.mainAddr).length = 10 ∧
      (env.mainAddr % 2 ^ 32 ≠ 0 →
        ∃ ds, addrField env.mainAddr = str "0x" ++ ds ∧ ds.length = 8 ∧
          ∀ c ∈ ds, isLowerHex c) := by
  obtain ⟨b1, b2, b3, -, hout⟩ := run_ok_inv env code st h
  refine ⟨startLine b1.val b2.val b3.val, ?_, addrField_length _, ?_⟩
  · rw [hout, headerOut]
  · intro h0
    have hlt : env.mainAddr % 2 ^ 32 < 2 ^ 32 := Nat.mod_lt _ (by norm_num)
    have hlen := hexDigits_length_le _ hlt
    refine ⟨_, by rw [addrField_eq]; exact fmtHex_alt_zero_pos _ h0 hlt, ?_, ?_⟩
    · simp only [List.length_append, List.length_replicate]
      omega
    · intro c hc
      simp only [List.mem_append, List.mem_replicate] at hc
      rcases hc with hc | hc
      · rw [hc.2]; decide
      · exact hexDigits_isLowerHex _ c hc

/-- Witness of C1 (amended) at the non-PIE load, whose run completes. -/
theorem C1_output_begins_witness :
    run elfEnv = .ok 0 { initState with
        out := str "Hello World!\nfoobarmain is located at 0x00401136\nStart E L F\n" } ∧
    ∃ rest, str "Hello World!\nfoobarmain is located at 0x00401136\nStart E L F\n"
        = str "Hello World!\n" ++ str "foo" ++ str "bar"
          ++ str "main is located at " ++ addrField elfEnv.mainAddr ++ str "\n" ++ rest ∧
      (addrField elfEnv.mainAddr).length = 10 ∧
      (elfEnv.mainAddr % 2 ^ 32 ≠ 0 →
        ∃ ds, addrField elfEnv.mainAddr = str "0x" ++ ds ∧ ds.length = 8 ∧
          ∀ c ∈ ds, isLowerHex c) :=
  ⟨rfl, C1_output_begins elfEnv 0
    { initState with
      out := str "Hello World!\nfoobarmain is located at 0x00401136\nStart E L F\n" } rfl⟩

/-- C2 at a load with `main` at `0x100000000`: the address is not zero, but
line 21 hands it to `%x`, which takes its low 32 bits, all zero, and the `#`
flag adds no `0x` to a zero value.  The field printed after
`main is located at ` is `0000000000`; it does not start with `0x`. -/
theorem C2_prefix_lost_at_4GiB :
    highEnv.mainAddr = 0x100000000 ∧ highEnv.mainAddr ≠ 0 ∧
    printf "main is located at %#010x\n" [.ptr highEnv.mainAddr] initState
      = .ok 30 { initState with out := str "main is located at 0000000000\n" } ∧
    run highEnv
      = .ok 0 { initState with
          out := str "Hello World!\nfoobarmain is located at 0000000000\nStart E L F\n" } ∧
    addrField highEnv.mainAddr = str "0000000000" ∧
    ¬ (str "0x" <+: addrField highEnv.mainAddr) := by
  refine ⟨rfl, by decide, rfl, rfl, rfl, by decide⟩

/-- C3 at a position-independent load: `main` is at `0x555555555149`, line 21
prints `0x55555149`; what is read back from the digits is `0x55555149`, not
the address of `main`. -/
theorem C3_truncated_address :
    printf "main is located at %#010x\n" [.ptr pieEnv.mainAddr] initState
      = .ok 30 { initState with out := str "main is located at 0x55555149\n" } ∧
    run pieEnv
      = .fault { initState with
          out := str "Hello World!\nfoobarmain is located at 0x55555149\n" } ∧
    addrField pieEnv.mainAddr = str "0x55555149" ∧
    parseHex ((addrField pieEnv.mainAddr).drop 2) = 0x55555149 ∧
    parseHex ((addrField pieEnv.mainAddr).drop 2) ≠ pieEnv.mainAddr := by
  refine ⟨rfl, rfl, rfl, rfl, by decide⟩

/-- C4: when the bytes at offsets 1, 2, 3 past `0x400000` are mapped with
values `b1`, `b2`, `b3`, the run completes and its output is earlier text
ending in a newline followed by exactly `Start b1 b2 b3\n`; nothing comes
after it. -/
theorem C4_start_line (env : Env) (b1 b2 b3 : Fin 256)
    (h1 : env.mem (0x400000 + 1) = some b1) (h2 : env.mem (0x400000 + 2) = some b2)
    (h3 : env.mem (0x400000 + 3) = some b3) :
    ∃ st pre, run env = .ok 0 st ∧
      st.out = pre ++ (str "Start " ++ [b1.val] ++ str " " ++ [b2.val] ++ str " " ++ [b3.val]
        ++ str "\n") ∧
      pre.getLast? = some 10 :=
  ⟨_, headerOut env.mainAddr, run_ok env b1 b2 b3 h1 h2 h3, rfl, headerOut_getLast _⟩

/-- Witness of C4 at the non-PIE load, where the three bytes are `E`, `L`,
`F`. -/
theorem C4_start_line_witness :
    ∃ st pre, run elfEnv = .ok 0 st ∧
      st.out = pre ++ (str "Start " ++ [(chr 'E').val] ++ str " " ++ [(chr 'L').val] ++ str " "
        ++ [(chr 'F').val] ++ str "\n") ∧
      pre.getLast? = some 10 :=
  C4_start_line elfEnv (chr 'E') (chr 'L') (chr 'F') rfl rfl rfl

/-- C5: when the three reads at offsets 1, 2, 3 past `0x400000` do not fault,
`main` returns, and it returns 0, whatever the bytes and the address of `main`
are. -/
theorem C5_exit_zero (env : Env) (h1 : (env.mem (0x400000 + 1)).isSome)
    (h2 : (env.mem (0x400000 + 2)).isSome) (h3 : (env.mem (0x400000 + 3)).isSome) :
    ∃ st, run env = .ok 0 st ∧ (run env).exitStatus = some 0 := by
  obtain ⟨b1, e1⟩ := Option.isSome_iff_exists.mp h1
  obtain ⟨b2, e2⟩ := Option.isSome_iff_exists.mp h2
  obtain ⟨b3, e3⟩ := Option.isSome_iff_exists.mp h3
  have hr := run_ok env b1 b2 b3 e1 e2 e3
  exact ⟨_, hr, by rw [hr]; rfl⟩

/-- Witness of C5 at the non-PIE load. -/
theorem C5_exit_zero_witness :
    ∃ st, run elfEnv = .ok 0 st ∧ (run elfEnv).exitStatus = some 0 :=
  C5_exit_zero elfEnv rfl rfl rfl

/-- C6: when one of the addresses `0x400001`, `0x400002`, `0x400003` is
unmapped, the run ends in a fault, it has no exit status, it is not a normal
exit, and the bytes printed up to the fault contain no `Start ` text. -/
theorem C6_unmapped_faults (env : Env)
    (h : env.mem (0x400000 + 1) = none ∨ env.mem (0x400000 + 2) = none
      ∨ env.mem (0x400000 + 3) = none) :
    (∃ st, run env = .fault st ∧ ¬ (str "Start " <:+: st.out)) ∧
      (run env).exitStatus = none ∧
      (∀ code st, run env ≠ .ok code st) ∧
      ¬ (str "Start " <:+: (run env).stdout) := by
  have hr := run_fault env h
  have hS : ¬ (str "Start " <:+: headerOut env.mainAddr) := by
    intro hin
    exact not_mem_headerOut env.mainAddr (hin.subset (by decide))
  refine ⟨⟨_, hr, hS⟩, by rw [hr]; rfl, ?_, by rw [hr]; exact hS⟩
  intro code st hok
  rw [hr] at hok
  exact Outcome.noConfusion hok

/-- Witness of C6 at the position-independent load, where nothing is mapped at
`0x400000`. -/
theorem C6_unmapped_faults_witness :
    (∃ st, run pieEnv = .fault st ∧ ¬ (str "Start " <:+: st.out)) ∧
      (run pieEnv).exitStatus = none ∧
      (∀ code st, run pieEnv ≠ .ok code st) ∧
      ¬ (str "Start " <:+: (run pieEnv).stdout) :=
  C6_unmapped_faults pieEnv (Or.inl rfl)

/-- C7: two runs with the same address of `main` and the same memory at the
fixed address (the bytes at `0x400000` to `0x400003`, mapped or not) have the
same standard output and the same exit status. -/
theorem C7_deterministic (env1 env2 : Env) (ha : env1.mainAddr = env2.mainAddr)
    (hm : ∀ i, i ≤ 3 → env1.mem (0x400000 + i) = env2.mem (0x400000 + i)) :
    (run env1).stdout = (run env2).stdout ∧ (run env1).exitStatus = (run env2).exitStatus := by
  have e : run env1 = run env2 := by
    rw [run_eq, run_eq, ha, hm 1 (by omega), hm 2 (by omega), hm 3 (by omega)]
  rw [e]
  exact ⟨rfl, rfl⟩

/-- Witness of C7: the non-PIE load and a load with the same address of `main`
and the same four bytes at `0x400000`. -/
theorem C7_deterministic_witness :
    (run elfEnv).stdout = (run headerOnlyEnv).stdout ∧
      (run elfEnv).exitStatus = (run headerOnlyEnv).exitStatus :=
  C7_deterministic elfEnv headerOnlyEnv rfl (by
    intro i hi
    interval_cases i <;> rfl)

/-- C8: `foo` appends exactly `foo` and `bar` exactly `bar` to the output, with
no newline; each returns nothing, leaves the globals as they were (0 in a run
of the program), and does the same whatever the memory holds. -/
theorem C8_greeters (env : Env) (st : State) :
    foo env st = .ok () { st with out := st.out ++ str "foo" } ∧
    bar env st = .ok () { st with out := st.out ++ str "bar" } ∧
    (∀ env2, foo env2 st = foo env st ∧ bar env2 st = bar env st) ∧
    (∀ out, foo env { initState with out := out }
        = .ok () { g_myGlobal := 0, g_myGlobal2 := 0, start := 0x400000,
                   out := out ++ [102, 111, 111] }) ∧
    (∀ out, bar env { initState with out := out }
        = .ok () { g_myGlobal := 0, g_myGlobal2 := 0, start := 0x400000,
                   out := out ++ [98, 97, 114] }) := by
  refine ⟨foo_eq env st, bar_eq env st, ?_, ?_, ?_⟩
  · intro env2
    rw [foo_eq, foo_eq, bar_eq, bar_eq]
    exact ⟨rfl, rfl⟩
  · intro out
    rw [foo_eq]
    rfl
  · intro out
    rw [bar_eq]
    rfl

/-- C9: when the memory at `0x400000` starts with the ELF magic `0x7f`, `E`,
`L`, `F`, the run completes and its output is earlier text ending in a newline
followed by exactly `Start E L F\n`, for every address of `main`. -/
theorem C9_elf_magic (env : Env) (_h0 : env.mem 0x400000 = some 0x7f)
    (h1 : env.mem (0x400000 + 1) = some (chr 'E'))
    (h2 : env.mem (0x400000 + 2) = some (chr 'L'))
    (h3 : env.mem (0x400000 + 3) = some (chr 'F')) :
    ∃ st pre, run env = .ok 0 st ∧ st.out = pre ++ str "Start E L F\n" ∧
      pre.getLast? = some 10 :=
  ⟨_, headerOut env.mainAddr, run_ok env _ _ _ h1 h2 h3, rfl, headerOut_getLast _⟩

/-- Witness of C9 at the non-PIE load. -/
theorem C9_elf_magic_witness :
    ∃ st pre, run elfEnv = .ok 0 st ∧ st.out = pre ++ str "Start E L F\n" ∧
      pre.getLast? = some 10 :=
  C9_elf_magic elfEnv rfl rfl rfl rfl

/-- C10: two environments with the same address of `main` that agree on the
three addresses `0x400001`, `0x400002`, `0x400003` (mapped or not, and the
byte) give the same result: same output, same exit status or same fault. -/
theorem C10_three_bytes_only (env1 env2 : Env) (ha : env1.mainAddr = env2.mainAddr)
    (h1 : env1.mem (0x400000 + 1) = env2.mem (0x400000 + 1))
    (h2 : env1.mem (0x400000 + 2) = env2.mem (0x400000 + 2))
    (h3 : env1.mem (0x400000 + 3) = env2.mem (0x400000 + 3)) :
    run env1 = run env2 := by
  rw [run_eq, run_eq, ha, h1, h2, h3]

/-- Witness of C10: the non-PIE load and a load where the base address
`0x400000` itself is unmapped. -/
theorem C10_three_bytes_only_witness :
    elfEnv.mem 0x400000 ≠ bareEnv.mem 0x400000 ∧ run elfEnv = run bareEnv :=
  ⟨by decide, C10_three_bytes_only elfEnv bareEnv rfl rfl rfl rfl⟩

end Elf
